import Mathlib

/-!
Shallow embedding of `src/scopus-author-search-by-au-name-and-subject-area.ts`,
a Deno/TypeScript streaming pipeline that resolves author names against the
Scopus author-search service.

Modelling conventions:
* JavaScript strings are Lean `String`s; the JS string methods used by the
  source (`split` with a one-character separator, `trim`, `padStart`,
  `replaceAll` with a one-character pattern) are re-implemented below on
  `List Char` so that they are structurally recursive and kernel-evaluable.
* A JS value that may be `undefined` is an `Option`; interpolating a possibly
  `undefined` value into a template literal prints `undefined`, and JS
  truthiness of an optional string is "present and non-empty".
* Numeric coercions (`+entry['document-count']`, `+body[...]['opensearch:totalResults']`)
  are modelled by giving those fields their numeric value (`Nat`).
* The stream combinators `map`/`filter`/`flatMap` (file `streams.ts`, outside
  `src/`) and `ReadableStream.tee` are modelled from the spec: per-item list
  `map`/`filter`/`flatMap`, and `tee` duplicates the item list to both branches.
* Thrown JS values are modelled by `JSVal`; `Error` objects carry a message
  and an optional `cause`.
-/

/-- JS `s.split(sep)` for a one-character separator, on char lists.
`[]` splits to `[[]]`, matching JS `"".split(sep) = [""]`. -/
def splitCh (sep : Char) : List Char → List (List Char)
  | [] => [[]]
  | c :: cs =>
    let r := splitCh sep cs
    if c = sep then [] :: r
    else
      match r with
      | h :: t => (c :: h) :: t
      | [] => [[c]]

/-- JS `s.split(sep)` for a one-character separator. -/
def jsSplit (sep : Char) (s : String) : List String :=
  (splitCh sep s.data).map String.mk

/-- JS whitespace test for `trim` (the characters occurring in this data). -/
def jsIsSpace (c : Char) : Bool :=
  c = ' ' || c = '\t' || c = '\n' || c = '\r'

/-- JS `s.trim()`. -/
def jsTrim (s : String) : String :=
  String.mk ((((s.data.dropWhile jsIsSpace).reverse).dropWhile jsIsSpace).reverse)

/-- JS `s.padStart(n, c)`. -/
def jsPadStart (s : String) (n : Nat) (c : Char) : String :=
  String.mk (List.replicate (n - s.data.length) c ++ s.data)

/-- JS `s.replaceAll(a, b)` for a one-character pattern and replacement. -/
def jsReplaceAll (s : String) (a b : Char) : String :=
  String.mk (s.data.map (fun c => if c = a then b else c))

/-- JS truthiness of a possibly `undefined` string: present and non-empty. -/
def jsTruthy : Option String → Bool
  | none => false
  | some s => !(s == "")

/-- JS template-literal interpolation of a possibly `undefined` string. -/
def jsStr : Option String → String
  | none => "undefined"
  | some s => s

/-! ### Data model -/

/-- `entry['preferred-name']` of a Scopus author-search entry. -/
structure PreferredName where
  surname : String
  givenName : String
  initials : String
deriving DecidableEq, Repr

/-- One candidate author entry of a search response (the fields the pipeline
reads: `dc:identifier`, `preferred-name`, `document-count`).
`documentCount` is the numeric value of the `document-count` string. -/
structure ScopusAuthorSearchEntry where
  dcIdentifier : String
  preferredName : PreferredName
  documentCount : Nat
deriving DecidableEq, Repr

/-- `body['search-results']`: the reported total-match count
(numeric value of `opensearch:totalResults`) and the candidate entries. -/
structure SearchResults where
  totalResults : Nat
  entry : List ScopusAuthorSearchEntry
deriving DecidableEq, Repr

/-- A thrown JS value: an `Error` (message, with or without a `cause`),
or any other value given by its string coercion. -/
inductive JSVal where
  | errorNoCause (message : String)
  | errorWithCause (message : String) (cause : JSVal)
  | other (str : String)
deriving DecidableEq, Repr

/-- `err instanceof Error`. -/
def JSVal.isErrorObj : JSVal → Bool
  | .errorNoCause _ => true
  | .errorWithCause _ _ => true
  | .other _ => false

/-- `err.cause` of an `Error` (`undefined` when absent). -/
def JSVal.causeOf : JSVal → Option JSVal
  | .errorWithCause _ c => some c
  | _ => none

/-- `err.message` for an `Error`, `` `${err}` `` string coercion otherwise. -/
def JSVal.messageOf : JSVal → String
  | .errorNoCause m => m
  | .errorWithCause m _ => m
  | .other s => s

/-- The wrapped error built in the Fetch Stage `catch` block:
`new Error(message, { cause: { query, error?, origin } })`. -/
structure FetchError where
  message : String
  causeQuery : String
  causeError : Option JSVal
  causeOrigin : JSVal
deriving DecidableEq, Repr

/-- `catch (err)` wrapping (source lines 135-149): an `Error` is rewrapped
keeping its message, with cause `{query, error: err.cause, origin: err}`;
any other thrown value `v` becomes an `Error` with its string coercion as
message and cause `{query, origin: v}`. -/
def wrapError (query : String) (err : JSVal) : FetchError :=
  if err.isErrorObj then
    { message := err.messageOf, causeQuery := query, causeError := err.causeOf,
      causeOrigin := err }
  else
    { message := err.messageOf, causeQuery := query, causeError := none,
      causeOrigin := err }

/-- The `body` of a fetch outcome together with the `type` tag:
`type: 'result'` carries the raw response, `type: 'error'` the wrapped error. -/
inductive FetchBody where
  | result (body : SearchResults)
  | error (e : FetchError)
deriving DecidableEq, Repr

/-- One record produced by the input-normalization stage (source lines 57-70).
Destructuring a too-short JS array yields `undefined`, hence the `Option`
fields; `name` and `lastName` are the first elements of their splits and are
always present. -/
structure QueryRecord where
  lastName : String
  firstName : Option String
  subjectArea : Option String
  ind : Option String
  nPub : Option String
  name : String
  index : String
deriving DecidableEq, Repr

/-- The object emitted by the Fetch Stage for one record (source lines 112-151):
the query fields, the cache flag and the tagged body. -/
structure FetchResult where
  lastName : String
  firstName : Option String
  subjectArea : Option String
  ind : Option String
  nPub : Option String
  name : String
  index : String
  isCached : Bool
  body : FetchBody
deriving DecidableEq, Repr

/-- The output row object built by the Candidate Selector (source lines 252-265),
fields in JS object-literal insertion order. `id` is the second component of
`dc:identifier` split on `:`, hence optional. -/
structure ResolvedAuthor where
  id : Option String
  name : String
  ind : Option String
  givenName : String
  surname : String
  initials : String
  numberOfPublications : Option String
  searchingSubjectArea : Option String
  documentCount : Nat
  lastName : String
  firstName : Option String
  index : String
deriving DecidableEq, Repr

/-! ### Query Normalizer (source lines 46-72) -/

/-- `` `${count}`.padStart(5, ' ') `` (source line 66). -/
def mkIndex (count : Nat) : String :=
  jsPadStart (Nat.repr count) 5 ' '

/-- The per-line mapping (source lines 57-70): split on tab and trim each
column, split `name` on the first comma into `(lastName, firstName)`
trimming both; columns past the end of the split are `undefined`. -/
def normalizeLine (index : String) (value : String) : QueryRecord :=
  let terms := (jsSplit '\t' value).map jsTrim
  let name := (terms[0]?).getD ""
  let parts := ((jsSplit ',' name).take 2).map jsTrim
  { lastName := (parts[0]?).getD ""
    firstName := parts[1]?
    subjectArea := terms[1]?
    ind := terms[2]?
    nPub := terms[3]?
    name := name
    index := index }

/-- The whole input stage (source lines 46-72): trim every line, drop blank
lines, then map `normalizeLine` with the 1-based counter. -/
def normalizeInput (lines : List String) : List QueryRecord :=
  (((lines.map jsTrim).filter (fun v => !(v == ""))).enum).map
    (fun p => normalizeLine (mkIndex (p.1 + 1)) p.2)

/-! ### File paths (source lines 10-39) -/

/-- `getFileName` (source lines 10-13). -/
def getFileName (name : String) : String :=
  "au-name-" ++ jsReplaceAll name ' ' '_' ++ ".json"

/-- `configName` (source line 26). -/
def configName : String := "top200-08-mahidol-university-energy-with-id-20241205"

/-- `outputDir` (source line 29). -/
def outputDir : String := "./target/output/" ++ configName

/-- `catchDir` (source line 30). -/
def catchDir : String := outputDir

/-- `getCache` (source lines 33-35). -/
def getCache (name : String) : String :=
  catchDir ++ "/" ++ getFileName name

/-- `getOuput` (source lines 37-39, name as in the source). -/
def getOuput (name : String) : String :=
  outputDir ++ "/" ++ getFileName name

/-! ### Fetch Stage (source lines 74-154) -/

/-- The query string (source lines 76-78): `firstName` is tested for JS
truthiness; optional fields interpolate as `undefined` when absent. -/
def buildQuery (q : QueryRecord) : String :=
  if jsTruthy q.firstName then
    "AUTHLASTNAME(" ++ q.lastName ++ ") AND AUTHFIRST(" ++ jsStr q.firstName ++
      ") AND SUBJAREA(" ++ jsStr q.subjectArea ++ ")"
  else
    "AUTHLASTNAME(" ++ q.lastName ++ ") AND SUBJAREA(" ++ jsStr q.subjectArea ++ ")"

/-- The environment of one fetch: the cache (a successful
`readTextFile` + `JSON.parse` at a path, anything else being a miss,
source lines 88-93) and the Search Gateway
(`authorSearchApi.search`, an external collaborator that may throw). -/
structure FetchEnv where
  cache : String → Option SearchResults
  gateway : String → Except JSVal SearchResults

/-- The Failure-tagged record built by the `catch` block (source lines 126-151). -/
def mkFetchFailure (q : QueryRecord) (query : String) (err : JSVal) : FetchResult :=
  { lastName := q.lastName, firstName := q.firstName, subjectArea := q.subjectArea,
    ind := q.ind, nPub := q.nPub, name := q.name, index := q.index,
    isCached := false, body := .error (wrapError query err) }

/-- The Success-tagged record (source lines 112-123). -/
def mkFetchSuccess (q : QueryRecord) (isCached : Bool) (body : SearchResults) :
    FetchResult :=
  { lastName := q.lastName, firstName := q.firstName, subjectArea := q.subjectArea,
    ind := q.ind, nPub := q.nPub, name := q.name, index := q.index,
    isCached := isCached, body := .result body }

/-- One record's fetch (source lines 75-153): empty-name validation, then
cache lookup at `getCache name`, then the gateway on a miss; every thrown
error is caught and converted into a Failure-tagged record.  Totality of
this function is the no-escape property of the `try`/`catch`. -/
def fetchStage (env : FetchEnv) (q : QueryRecord) : FetchResult :=
  let query := buildQuery q
  if q.name == "" then
    mkFetchFailure q query (.errorNoCause "The name is empty")
  else
    match env.cache (getCache q.name) with
    | some body => mkFetchSuccess q true body
    | none =>
      match env.gateway query with
      | .ok body => mkFetchSuccess q false body
      | .error e => mkFetchFailure q query e

/-- The Fetch Stage over the whole input (`map` over the record stream);
records are processed independently. -/
def runFetch (env : FetchEnv) (qs : List QueryRecord) : List FetchResult :=
  qs.map (fetchStage env)

/-! ### Tee and Archive Sink (source lines 156-195) -/

/-- Modelled from the spec (§4.5): `ReadableStream.tee` (a platform
primitive) duplicates every item of the stream to both branches, in order. -/
def teeBranches (results : List FetchResult) : List FetchResult × List FetchResult :=
  (results, results)

/-- `body instanceof Error` (source line 166). -/
def isErrorResult (r : FetchResult) : Bool :=
  match r.body with
  | .error _ => true
  | .result _ => false

/-- `` `inx${index.replaceAll(' ', '0')}` `` (source line 183). -/
def inxOfIndex (index : String) : String :=
  "inx" ++ jsReplaceAll index ' ' '0'

/-- `fileId` (source line 184): the raw name, or the index-based id when
the name is empty. -/
def archiveFileId (r : FetchResult) : String :=
  if r.name == "" then inxOfIndex r.index else r.name

/-- The `error-` marker (source line 185). -/
def archivePfx (r : FetchResult) : String :=
  if isErrorResult r then "error-" ++ inxOfIndex r.index ++ "-" else ""

/-- The name passed to `getOuput` (source line 186). -/
def archiveName (r : FetchResult) : String :=
  archivePfx r ++ archiveFileId r

/-- The document serialized by the Archive Sink (source lines 168-180):
for a Failure `{name, message, cause}` (an `Error`'s `.name` is `"Error"`),
for a Success the raw response body. -/
inductive ArchiveDoc where
  | errorDoc (name message : String) (causeQuery : String)
      (causeError : Option JSVal) (causeOrigin : JSVal)
  | rawDoc (body : SearchResults)
deriving DecidableEq, Repr

/-- The serialized document for one result. -/
def archiveDoc (r : FetchResult) : ArchiveDoc :=
  match r.body with
  | .error e => .errorDoc "Error" e.message e.causeQuery e.causeError e.causeOrigin
  | .result b => .rawDoc b

/-- One Archive Sink step (source lines 160-193): skip when the record came
from the cache and the cache path equals the output path; otherwise perform
exactly one write, of `archiveDoc` at `getOuput (archiveName r)`. -/
def archiveAction (r : FetchResult) : Option (String × ArchiveDoc) :=
  if r.isCached && (getCache r.name == getOuput r.name) then none
  else some (getOuput (archiveName r), archiveDoc r)

/-! ### Candidate Selector (source lines 197-273) -/

/-- The keep-condition of the selector branch's `filter`
(source lines 199-204): not an error, and the numeric value of
`opensearch:totalResults` is greater than zero. -/
def selectorKeep (r : FetchResult) : Bool :=
  match r.body with
  | .error _ => false
  | .result b => decide (0 < b.totalResults)

/-- `entry['dc:identifier'].split(':')[1]` (source lines 222 and 245):
`undefined` (here `none`) when the identifier has no `:`. -/
def entryId (e : ScopusAuthorSearchEntry) : Option String :=
  (jsSplit ':' e.dcIdentifier)[1]?

/-- The sort comparator (source lines 223-232), descending by the numeric
`document-count`; as a boolean order: `pre` may precede `next` iff
`next`'s count is at most `pre`'s. -/
def docLe (pre next : ScopusAuthorSearchEntry) : Bool :=
  decide (next.documentCount ≤ pre.documentCount)

/-- The dedup filter (source line 222): drop entries whose id is already in
the run-wide set (JS `Set` membership, including `undefined`). -/
def filteredEntries (idSet : List (Option String))
    (entries : List ScopusAuthorSearchEntry) : List ScopusAuthorSearchEntry :=
  entries.filter (fun e => !(idSet.contains (entryId e)))

/-- `sortedEntries` (source lines 221-232): filter, then stable sort
descending by document count (JS `Array.prototype.sort` is stable). -/
def sortedEntries (idSet : List (Option String))
    (entries : List ScopusAuthorSearchEntry) : List ScopusAuthorSearchEntry :=
  (filteredEntries idSet entries).mergeSort docLe

/-- The name-match predicate of `sortedEntries.find` (source lines 236-239):
exact surname equality, and when `firstName` is truthy exact equality with
the preferred initials. -/
def nameMatch (lastName : String) (firstName : Option String)
    (e : ScopusAuthorSearchEntry) : Bool :=
  e.preferredName.surname == lastName &&
    (!(jsTruthy firstName) || firstName == some e.preferredName.initials)

/-- `result` (source lines 234-240): the first name-matching candidate of the
sorted filtered list, or its first element when none matches (`??` together
with out-of-range indexing both yield `undefined`, here `none`). -/
def selectCandidate (idSet : List (Option String)) (lastName : String)
    (firstName : Option String) (entries : List ScopusAuthorSearchEntry) :
    Option ScopusAuthorSearchEntry :=
  ((sortedEntries idSet entries).find? (nameMatch lastName firstName)) <|>
    (sortedEntries idSet entries)[0]?

/-- The candidate entries a result carries into the selector (after the
branch filter the body is always `result`). -/
def entriesOf (r : FetchResult) : List ScopusAuthorSearchEntry :=
  match r.body with
  | .result b => b.entry
  | .error _ => []

/-- The output row (source lines 245-265). -/
def mkResolved (r : FetchResult) (e : ScopusAuthorSearchEntry) : ResolvedAuthor :=
  { id := entryId e, name := r.name, ind := r.ind,
    givenName := e.preferredName.givenName, surname := e.preferredName.surname,
    initials := e.preferredName.initials, numberOfPublications := r.nPub,
    searchingSubjectArea := r.subjectArea, documentCount := e.documentCount,
    lastName := r.lastName, firstName := r.firstName, index := r.index }

/-- One selector step (source lines 242-269): select, and on success emit one
row and add the selected id to the run-wide set. -/
def selectorStep (idSet : List (Option String)) (r : FetchResult) :
    List ResolvedAuthor × List (Option String) :=
  match selectCandidate idSet r.lastName r.firstName (entriesOf r) with
  | some e => ([mkResolved r e], entryId e :: idSet)
  | none => ([], idSet)

/-- The selector over a branch (the `flatMap` with the closed-over `idSet`,
source lines 206-273), threading the run-wide dedup set. -/
def runSelector (idSet : List (Option String)) :
    List FetchResult → List ResolvedAuthor
  | [] => []
  | r :: rs =>
    let p := selectorStep idSet r
    p.1 ++ runSelector p.2 rs

/-- The whole resolution branch (source lines 197-273): filter, then select. -/
def selectorOutputs (results : List FetchResult) : List ResolvedAuthor :=
  runSelector [] (results.filter selectorKeep)

/-- The selection a record would get with no prior claims: its best candidate. -/
def bestCandidate (r : FetchResult) : Option ScopusAuthorSearchEntry :=
  selectCandidate [] r.lastName r.firstName (entriesOf r)

/-! ### Tabular Emitter (source lines 275-303) -/

/-- `Object.keys(entry)` for a `ResolvedAuthor` literal: the JS insertion
order of the object literal at source lines 252-265 (the shape is fixed, so
this does not depend on the record). -/
def objKeysOf (_ : ResolvedAuthor) : List String :=
  ["id", "name", "ind", "given-name", "surname", "initials",
   "number-of-publications", "searching-subject-area", "document-count",
   "lastName", "firstName", "index"]

/-- A CSV cell of a possibly `undefined` string (`stringify` renders
`undefined` as the empty cell). -/
def cellOpt : Option String → String
  | none => ""
  | some s => s

/-- `entry[column]` as a CSV cell; a key not in the object yields the empty
cell. -/
def fieldCell (a : ResolvedAuthor) (key : String) : String :=
  if key == "id" then cellOpt a.id
  else if key == "name" then a.name
  else if key == "ind" then cellOpt a.ind
  else if key == "given-name" then a.givenName
  else if key == "surname" then a.surname
  else if key == "initials" then a.initials
  else if key == "number-of-publications" then cellOpt a.numberOfPublications
  else if key == "searching-subject-area" then cellOpt a.searchingSubjectArea
  else if key == "document-count" then Nat.repr a.documentCount
  else if key == "lastName" then a.lastName
  else if key == "firstName" then cellOpt a.firstName
  else if key == "index" then a.index
  else ""

/-- `stringify([entry], {headers: false, columns})`: one data row in the
fixed column order. -/
def rowFor (columns : List String) (a : ResolvedAuthor) : List String :=
  columns.map (fieldCell a)

/-- The emitter's `flatMap` body (source lines 286-299) threading the
`columns` state: on the first record derive the columns and emit header and
data row, afterwards emit only data rows. -/
def emitAux : Option (List String) → List ResolvedAuthor → List (List String)
  | _, [] => []
  | none, a :: rest =>
    objKeysOf a :: rowFor (objKeysOf a) a :: emitAux (some (objKeysOf a)) rest
  | some cols, a :: rest => rowFor cols a :: emitAux (some cols) rest

/-- The Tabular Emitter over the selector outputs (`columns` starts
uninitialized, source line 282). -/
def emitTable (l : List ResolvedAuthor) : List (List String) :=
  emitAux none l

/-! ### The full pipeline -/

/-- One run: normalize the input lines, fetch every record, tee, and resolve
the selector branch. -/
def runPipeline (env : FetchEnv) (lines : List String) : List ResolvedAuthor :=
  selectorOutputs (teeBranches (runFetch env (normalizeInput lines))).2

/-! ### Concrete instances used by the claim theorems -/

/-- C2 witness: two single-candidate records with the same best id; the
first claims it and the second, its only candidate claimed, emits nothing. -/
def c2Entry : ScopusAuthorSearchEntry :=
  { dcIdentifier := "AUTHOR_ID:X1",
    preferredName := { surname := "S", givenName := "G", initials := "I." },
    documentCount := 1 }

/-- A Success result over one candidate, used to instantiate C2. -/
def c2ResA : FetchResult :=
  { lastName := "S", firstName := none, subjectArea := some "ENGI",
    ind := some "1", nPub := some "5", name := "A", index := mkIndex 1,
    isCached := false, body := .result { totalResults := 1, entry := [c2Entry] } }

/-- The later record of the C2 witness, same single candidate. -/
def c2ResB : FetchResult :=
  { lastName := "S", firstName := none, subjectArea := some "ENGI",
    ind := some "1", nPub := some "5", name := "B", index := mkIndex 2,
    isCached := false, body := .result { totalResults := 1, entry := [c2Entry] } }

/-- The first candidate of the §8 example: id `A1`, surname `Smith`,
initials `J.`, document count 3 (`dc:identifier` uses the Scopus
`AUTHOR_ID:` form; the given name is not fixed by the example). -/
def c4EntryA1 : ScopusAuthorSearchEntry :=
  { dcIdentifier := "AUTHOR_ID:A1",
    preferredName := { surname := "Smith", givenName := "John", initials := "J." },
    documentCount := 3 }

/-- The second candidate of the §8 example: id `A2`, surname `Smith`,
initials `K.`, document count 9. -/
def c4EntryA2 : ScopusAuthorSearchEntry :=
  { dcIdentifier := "AUTHOR_ID:A2",
    preferredName := { surname := "Smith", givenName := "Kyle", initials := "K." },
    documentCount := 9 }

/-- The record normalized from the example input line. -/
def c4Record : QueryRecord := normalizeLine (mkIndex 1) "Smith, J\tENGI\t1\t50"

/-- The example's Success result carrying the two candidates. -/
def c4Result : FetchResult :=
  mkFetchSuccess c4Record false { totalResults := 2, entry := [c4EntryA1, c4EntryA2] }

/-- A cached zero-match Success: kept out of the selector branch and, being
cached with coinciding cache/output paths, skipped by the Archive Sink. -/
def c6Cached : FetchResult :=
  { lastName := "Smith", firstName := some "J", subjectArea := some "ENGI",
    ind := some "1", nPub := some "50", name := "Smith, J", index := mkIndex 3,
    isCached := true, body := .result { totalResults := 0, entry := [] } }

/-- The gateway environment of the C7 witness: an empty cache and a gateway
that always throws an `Error` with a cause. -/
def c7Env : FetchEnv :=
  { cache := fun _ => none,
    gateway := fun _ => .error (.errorWithCause "boom" (.other "root")) }

/-- A Failure result with an empty raw name, instantiating C9. -/
def c9Failure : FetchResult :=
  mkFetchFailure (normalizeLine (mkIndex 12) "") "AUTHLASTNAME() AND SUBJAREA(undefined)"
    (.errorNoCause "The name is empty")

unseal List.merge List.mergeSort

/-! ### Helper lemmas -/

theorem docLe_trans (a b c : ScopusAuthorSearchEntry) :
    docLe a b → docLe b c → docLe a c := by
  simp only [docLe, decide_eq_true_eq]
  omega

theorem docLe_total (a b : ScopusAuthorSearchEntry) : docLe a b || docLe b a := by
  simp only [docLe, Bool.or_eq_true, decide_eq_true_eq]
  omega

theorem mem_of_mem_sortedEntries {s : List (Option String)}
    {entries : List ScopusAuthorSearchEntry} {e : ScopusAuthorSearchEntry}
    (h : e ∈ sortedEntries s entries) : e ∈ filteredEntries s entries := by
  simpa [sortedEntries] using h

theorem selectCandidate_mem {s : List (Option String)} {ln : String}
    {fn : Option String} {entries : List ScopusAuthorSearchEntry}
    {e : ScopusAuthorSearchEntry}
    (h : selectCandidate s ln fn entries = some e) : e ∈ sortedEntries s entries := by
  unfold selectCandidate at h
  cases hf : (sortedEntries s entries).find? (nameMatch ln fn) with
  | some x =>
    rw [hf] at h
    simp only [Option.some_orElse] at h
    cases h
    exact List.mem_of_find?_eq_some hf
  | none =>
    rw [hf] at h
    simp only [Option.none_orElse] at h
    exact List.getElem?_mem h

theorem selectCandidate_not_claimed {s : List (Option String)} {ln : String}
    {fn : Option String} {entries : List ScopusAuthorSearchEntry}
    {e : ScopusAuthorSearchEntry}
    (h : selectCandidate s ln fn entries = some e) :
    s.contains (entryId e) = false := by
  have hm := mem_of_mem_sortedEntries (selectCandidate_mem h)
  simp only [filteredEntries, List.mem_filter, Bool.not_eq_true'] at hm
  exact hm.2

theorem contains_false_of_cons {x i : Option String} {s : List (Option String)}
    (h : (x :: s).contains i = false) : i ≠ x ∧ s.contains i = false := by
  simp only [List.contains_cons, Bool.or_eq_false_iff] at h
  exact ⟨by simpa using h.1, h.2⟩

/-- The run-wide dedup invariant: from any starting set, the emitted ids are
pairwise distinct and none of them was already in the set. -/
theorem runSelector_ids_nodup :
    ∀ (rs : List FetchResult) (s : List (Option String)),
      (((runSelector s rs).map (fun a => a.id)).Nodup ∧
        ∀ i ∈ (runSelector s rs).map (fun a => a.id), s.contains i = false) := by
  intro rs
  induction rs with
  | nil => intro s; simp [runSelector]
  | cons r rs ih =>
    intro s
    cases hsel : selectCandidate s r.lastName r.firstName (entriesOf r) with
    | none =>
      simpa [runSelector, selectorStep, hsel] using ih s
    | some e =>
      have step : runSelector s (r :: rs) =
          mkResolved r e :: runSelector (entryId e :: s) rs := by
        simp [runSelector, selectorStep, hsel]
      have ihs := ih (entryId e :: s)
      constructor
      · rw [step]
        simp only [List.map_cons, List.nodup_cons]
        refine ⟨?_, ihs.1⟩
        intro hmem
        have := (contains_false_of_cons (ihs.2 _ hmem)).1
        simp [mkResolved] at this
      · intro i hi
        rw [step] at hi
        simp only [List.map_cons, List.mem_cons] at hi
        cases hi with
        | inl h =>
          subst h
          simpa [mkResolved] using selectCandidate_not_claimed hsel
        | inr h =>
          exact (contains_false_of_cons (ihs.2 _ h)).2

/-- C1: over any run, the Candidate Selector checks every candidate against
the run-wide dedup set before selection and records the selected id, so the
multiset of emitted `externalId` values (the `id` fields of the emitted
`ResolvedAuthor` rows) is duplicate-free; this holds for the selector branch
on any result list and for the whole pipeline. -/
theorem claim_C1 :
    (∀ results : List FetchResult,
      ((selectorOutputs results).map (fun a => a.id)).Nodup) ∧
    ∀ (env : FetchEnv) (lines : List String),
      ((runPipeline env lines).map (fun a => a.id)).Nodup := by
  constructor
  · intro results
    simpa [selectorOutputs] using
      (runSelector_ids_nodup (results.filter selectorKeep) []).1
  · intro env lines
    simpa [runPipeline, selectorOutputs] using
      (runSelector_ids_nodup
        (((teeBranches (runFetch env (normalizeInput lines))).2).filter selectorKeep)
        []).1

/-- C2: when two records' best candidates carry the same external id, the
earlier record emits its best candidate and claims the id; the later record's
selection is made with that id claimed (so it never re-selects it, falling
back within the unclaimed candidates), and it emits nothing when every one of
its candidates carries the claimed id. -/
theorem claim_C2 (a b : FetchResult) (ea eb : ScopusAuthorSearchEntry)
    (ha : bestCandidate a = some ea) (_hb : bestCandidate b = some eb)
    (_hid : entryId ea = entryId eb) :
    runSelector [] [a, b] =
      mkResolved a ea ::
        (match selectCandidate [entryId ea] b.lastName b.firstName (entriesOf b) with
          | some e => [mkResolved b e]
          | none => []) ∧
    (∀ e, selectCandidate [entryId ea] b.lastName b.firstName (entriesOf b) = some e →
      entryId e ≠ entryId ea) ∧
    ((∀ e ∈ entriesOf b, entryId e = entryId ea) →
      selectCandidate [entryId ea] b.lastName b.firstName (entriesOf b) = none) := by
  have ha' : selectCandidate [] a.lastName a.firstName (entriesOf a) = some ea := ha
  refine ⟨?_, ?_, ?_⟩
  · cases hsel : selectCandidate [entryId ea] b.lastName b.firstName (entriesOf b) with
    | some e => simp [runSelector, selectorStep, ha', hsel]
    | none => simp [runSelector, selectorStep, ha', hsel]
  · intro e he
    exact (contains_false_of_cons (selectCandidate_not_claimed he)).1
  · intro hall
    have hfil : filteredEntries [entryId ea] (entriesOf b) = [] := by
      simp only [filteredEntries, List.filter_eq_nil_iff]
      intro e he
      simp [hall e he]
    simp [selectCandidate, sortedEntries, hfil]

theorem claim_C2_witness :
    runSelector [] [c2ResA, c2ResB] =
      mkResolved c2ResA c2Entry ::
        (match selectCandidate [entryId c2Entry] c2ResB.lastName c2ResB.firstName
            (entriesOf c2ResB) with
          | some e => [mkResolved c2ResB e]
          | none => []) ∧
    (∀ e, selectCandidate [entryId c2Entry] c2ResB.lastName c2ResB.firstName
        (entriesOf c2ResB) = some e → entryId e ≠ entryId c2Entry) ∧
    ((∀ e ∈ entriesOf c2ResB, entryId e = entryId c2Entry) →
      selectCandidate [entryId c2Entry] c2ResB.lastName c2ResB.firstName
        (entriesOf c2ResB) = none) :=
  claim_C2 c2ResA c2ResB c2Entry c2Entry (by decide) (by decide) rfl

/-- C3: on the dedup-filtered, document-count-sorted candidate list, the
selection is the first name-matching candidate when one exists (so a name
match beats any higher document count), and otherwise the first element of
the sorted filtered list, which has maximal document count among it. -/
theorem claim_C3 (s : List (Option String)) (ln : String) (fn : Option String)
    (entries : List ScopusAuthorSearchEntry) :
    ((∃ e ∈ sortedEntries s entries, nameMatch ln fn e = true) →
      ∃ e, selectCandidate s ln fn entries = some e ∧ nameMatch ln fn e = true ∧
        ∃ before after, sortedEntries s entries = before ++ e :: after ∧
          ∀ x ∈ before, nameMatch ln fn x = false) ∧
    ((∀ e ∈ sortedEntries s entries, nameMatch ln fn e = false) →
      selectCandidate s ln fn entries = (sortedEntries s entries)[0]? ∧
      ∀ h, (sortedEntries s entries)[0]? = some h →
        ∀ x ∈ sortedEntries s entries, x.documentCount ≤ h.documentCount) := by
  constructor
  · intro hex
    have hs : ((sortedEntries s entries).find? (nameMatch ln fn)).isSome := by
      rw [List.find?_isSome]
      obtain ⟨e, he, hp⟩ := hex
      exact ⟨e, he, hp⟩
    obtain ⟨e, he⟩ := Option.isSome_iff_exists.mp hs
    obtain ⟨hp, before, after, hdec, hpre⟩ := List.find?_eq_some.mp he
    refine ⟨e, ?_, hp, before, after, hdec, ?_⟩
    · simp [selectCandidate, he]
    · intro x hx
      simpa using hpre x hx
  · intro hall
    have hf : (sortedEntries s entries).find? (nameMatch ln fn) = none :=
      List.find?_eq_none.mpr (fun x hx => by simp [hall x hx])
    refine ⟨by simp [selectCandidate, hf], ?_⟩
    intro h h0 x hx
    have hp : (sortedEntries s entries).Pairwise (fun a b => docLe a b) := by
      simpa [sortedEntries] using
        List.sorted_mergeSort docLe_trans docLe_total (filteredEntries s entries)
    cases hsort : sortedEntries s entries with
    | nil => rw [hsort] at h0; simp at h0
    | cons hd tl =>
      rw [hsort] at h0
      simp only [List.getElem?_cons_zero, Option.some.injEq] at h0
      subst h0
      rw [hsort] at hp hx
      rcases List.mem_cons.mp hx with hxh | hxt
      · subst hxh; exact Nat.le_refl _
      · have := (List.pairwise_cons.mp hp).1 x hxt
        simpa [docLe] using this

/-- C3 witness: with a dotted first name (`J.`) the first conjunct of the
tie-break theorem applies to the example candidates: the name match `A1`
is selected over the higher-count `A2`. -/
theorem claim_C3_witness :
    ∃ e, selectCandidate [] "Smith" (some "J.") [c4EntryA1, c4EntryA2] = some e ∧
      nameMatch "Smith" (some "J.") e = true ∧
      ∃ before after,
        sortedEntries [] [c4EntryA1, c4EntryA2] = before ++ e :: after ∧
        ∀ x ∈ before, nameMatch "Smith" (some "J.") x = false :=
  (claim_C3 [] "Smith" (some "J.") [c4EntryA1, c4EntryA2]).1 (by decide)

/-- C4 counterexample: for the input line `"Smith, J\tENGI\t1\t50"` and the
two example candidates with an empty dedup set, the selector does NOT select
`A1`: the query's first name is `J` while the candidate's initials are `J.`,
so the strict equality of the name match fails for both candidates. -/
theorem claim_C4_counterexample :
    selectCandidate [] c4Record.lastName c4Record.firstName
      [c4EntryA1, c4EntryA2] ≠ some c4EntryA1 := by decide

/-- C4 amended: on that input the name match fails for every candidate
(`"J." ≠ "J"` under the code's strict equality), so the selector falls back
to the highest-document-count candidate and selects `A2`. -/
theorem claim_C4 :
    selectCandidate [] c4Record.lastName c4Record.firstName
        [c4EntryA1, c4EntryA2] = some c4EntryA2 ∧
    selectorOutputs [c4Result] = [mkResolved c4Result c4EntryA2] ∧
    (mkResolved c4Result c4EntryA2).id = some "A2" := by decide

/-- C5 counterexample: for the non-blank line `"Smith, J"` (one column, no
tabs) the missing `subjectArea` column is NOT the empty string: destructuring
the short split array yields `undefined` (`none`), and likewise for the other
missing columns. -/
theorem claim_C5_counterexample :
    (normalizeLine (mkIndex 1) "Smith, J").subjectArea ≠ some "" ∧
    (normalizeLine (mkIndex 1) "Smith, J").subjectArea = none ∧
    (normalizeLine (mkIndex 1) "Smith, J").ind = none ∧
    (normalizeLine (mkIndex 1) "Smith, J").nPub = none := by decide

/-- C5 amended: normalization is total (no error path; `normalizeLine` is a
total function) and on a line with fewer than four tab-separated columns each
missing field is absent (`undefined`), not an empty string; the first column
and the last name are always present. -/
theorem claim_C5 (index value : String) :
    ((jsSplit '\t' value).length ≤ 1 → (normalizeLine index value).subjectArea = none) ∧
    ((jsSplit '\t' value).length ≤ 2 → (normalizeLine index value).ind = none) ∧
    ((jsSplit '\t' value).length ≤ 3 → (normalizeLine index value).nPub = none) ∧
    (normalizeLine index value).name =
      (((jsSplit '\t' value).map jsTrim)[0]?).getD "" ∧
    (normalizeLine index value).lastName =
      ((((jsSplit ',' (normalizeLine index value).name).take 2).map jsTrim)[0]?).getD "" := by
  refine ⟨?_, ?_, ?_, rfl, rfl⟩ <;>
    · intro h
      simp only [normalizeLine]
      apply List.getElem?_eq_none
      simpa using h

/-- C5 witness: the amended statement applied to the one-column line. -/
theorem claim_C5_witness :
    (normalizeLine (mkIndex 1) "Smith, J").subjectArea = none ∧
    (normalizeLine (mkIndex 1) "Smith, J").ind = none ∧
    (normalizeLine (mkIndex 1) "Smith, J").nPub = none :=
  ⟨(claim_C5 (mkIndex 1) "Smith, J").1 (by decide),
   (claim_C5 (mkIndex 1) "Smith, J").2.1 (by decide),
   (claim_C5 (mkIndex 1) "Smith, J").2.2.1 (by decide)⟩

/-- C6 counterexample: this zero-match Success produces no ResolvedAuthor
(consistent with the claim) but the Archive Sink performs NO write for it
(`fromCache = true` makes the sink skip), refuting "every FetchResult ... is
written to the archive". -/
theorem claim_C6_counterexample :
    selectorKeep c6Cached = false ∧ archiveAction c6Cached = none := by decide

/-- C6 amended: the selector branch processes a FetchResult iff it is a
Success with a positive reported total-match count; the archive branch of the
tee still observes every FetchResult, and writes it unless the write is
skipped because the result came from the cache (`fromCache = true`, the cache
path coinciding with the output path). -/
theorem claim_C6 :
    (∀ results : List FetchResult,
      (teeBranches results).1 = results ∧
      (teeBranches results).2.filter selectorKeep = results.filter selectorKeep) ∧
    (∀ r : FetchResult,
      selectorKeep r = true ↔ ∃ b, r.body = .result b ∧ 0 < b.totalResults) ∧
    (∀ r : FetchResult, (archiveAction r).isSome = !r.isCached) := by
  refine ⟨fun results => ⟨rfl, rfl⟩, ?_, ?_⟩
  · intro r
    cases hb : r.body with
    | error e => simp [selectorKeep, hb]
    | result b =>
      simp only [selectorKeep, hb, decide_eq_true_eq]
      constructor
      · intro h; exact ⟨b, rfl, h⟩
      · rintro ⟨b', hb', hpos⟩; cases hb'; exact hpos
  · intro r
    have hpath : (getCache r.name == getOuput r.name) = true := by
      simp [getCache, getOuput, catchDir]
    simp only [archiveAction, hpath, Bool.and_true]
    cases r.isCached <;> simp

/-- C6 witness: the amended statement applied to the cached zero-match
Success: it is dropped from the selector branch and not written. -/
theorem claim_C6_witness :
    (selectorKeep c6Cached = true ↔
      ∃ b, c6Cached.body = .result b ∧ 0 < b.totalResults) ∧
    (archiveAction c6Cached).isSome = !c6Cached.isCached :=
  ⟨(claim_C6.2.1 c6Cached), claim_C6.2.2 c6Cached⟩

/-- Every fetch outcome is a Success or a Failure wrapped with this
record's query — the case analysis of `fetchStage`. -/
theorem fetchStage_cases (env : FetchEnv) (q : QueryRecord) :
    (∃ b c, fetchStage env q = mkFetchSuccess q c b) ∨
    (∃ err, fetchStage env q = mkFetchFailure q (buildQuery q) err) := by
  unfold fetchStage
  cases h : (q.name == "") with
  | true => simp only [h, if_true]; exact Or.inr ⟨_, rfl⟩
  | false =>
    simp only [h, Bool.false_eq_true, if_false]
    cases hc : env.cache (getCache q.name) with
    | some body => exact Or.inl ⟨body, true, rfl⟩
    | none =>
      cases hg : env.gateway (buildQuery q) with
      | ok body => exact Or.inl ⟨body, false, rfl⟩
      | error e => exact Or.inr ⟨e, rfl⟩

/-- C7: every error arising inside one record's fetch — empty-name
validation or a gateway throw after a cache miss — is converted into a
Failure-tagged FetchResult whose wrapped error carries the query string and
the original thrown value in its cause, with `fromCache = false`; totality of
`fetchStage` is the guarantee that no exception escapes a record's
processing. -/
theorem claim_C7 (env : FetchEnv) (q : QueryRecord) :
    (q.name = "" →
      fetchStage env q =
        mkFetchFailure q (buildQuery q) (.errorNoCause "The name is empty")) ∧
    (∀ e, q.name ≠ "" → env.cache (getCache q.name) = none →
      env.gateway (buildQuery q) = .error e →
      fetchStage env q = mkFetchFailure q (buildQuery q) e) ∧
    (∀ fe, (fetchStage env q).body = .error fe →
      (fetchStage env q).isCached = false ∧
      fe.causeQuery = buildQuery q ∧
      ∃ thrown, fe = wrapError (buildQuery q) thrown ∧ fe.causeOrigin = thrown) := by
  refine ⟨?_, ?_, ?_⟩
  · intro h
    simp [fetchStage, h]
  · intro e hname hcache hgw
    simp [fetchStage, hname, hcache, hgw]
  · intro fe hfe
    rcases fetchStage_cases env q with ⟨b, c, heq⟩ | ⟨err, heq⟩
    · rw [heq] at hfe
      simp [mkFetchSuccess] at hfe
    · rw [heq] at hfe ⊢
      simp only [mkFetchFailure, FetchBody.error.injEq] at hfe
      subst hfe
      refine ⟨rfl, ?_, ⟨err, rfl, ?_⟩⟩ <;>
        cases err <;>
          simp [wrapError, JSVal.isErrorObj, JSVal.causeOf, JSVal.messageOf]

/-- C7 witness: the gateway-throw conjunct applied to the example record. -/
theorem claim_C7_witness :
    fetchStage c7Env c4Record =
      mkFetchFailure c4Record (buildQuery c4Record)
        (.errorWithCause "boom" (.other "root")) :=
  (claim_C7 c7Env c4Record).2.1 (.errorWithCause "boom" (.other "root"))
    (by decide) rfl rfl

/-- Once `columns` is set, the emitter maps each record to one data row. -/
theorem emitAux_some (cols : List String) :
    ∀ l : List ResolvedAuthor, emitAux (some cols) l = l.map (rowFor cols) := by
  intro l
  induction l with
  | nil => rfl
  | cons a rest ih => simp [emitAux, ih]

/-- C8: the first ResolvedAuthor yields the header row (its field order)
followed by its data row; every later record yields exactly one data row in
that fixed column order; zero records yield an empty tabular output (no
header row). -/
theorem claim_C8 :
    emitTable [] = [] ∧
    ∀ (a : ResolvedAuthor) (rest : List ResolvedAuthor),
      emitTable (a :: rest) =
        objKeysOf a :: rowFor (objKeysOf a) a :: rest.map (rowFor (objKeysOf a)) := by
  refine ⟨rfl, ?_⟩
  intro a rest
  simp [emitTable, emitAux, emitAux_some]

/-- No character of the decimal representation of a `Nat` is a space. -/
theorem digitChar_ne_space (m : Nat) : Nat.digitChar m ≠ ' ' := by
  rcases m with _|_|_|_|_|_|_|_|_|_|_|_|_|_|_|_|m
  all_goals try decide
  show Nat.digitChar (m + 16) ≠ ' '
  have h : ∀ k, Nat.digitChar k = if k = 0 then '0' else
      if k = 1 then '1' else if k = 2 then '2' else if k = 3 then '3' else
      if k = 4 then '4' else if k = 5 then '5' else if k = 6 then '6' else
      if k = 7 then '7' else if k = 8 then '8' else if k = 9 then '9' else
      if k = 0xa then 'a' else if k = 0xb then 'b' else if k = 0xc then 'c' else
      if k = 0xd then 'd' else if k = 0xe then 'e' else if k = 0xf then 'f' else
      '*' := fun k => rfl
  rw [h]
  repeat rw [if_neg (by omega)]
  decide

/-- `Nat.toDigitsCore` only prepends digit characters to its accumulator. -/
theorem toDigitsCore_ne_space (b : Nat) :
    ∀ (fuel n : Nat) (acc : List Char), (∀ c ∈ acc, c ≠ ' ') →
      ∀ c ∈ Nat.toDigitsCore b fuel n acc, c ≠ ' ' := by
  intro fuel
  induction fuel with
  | zero => intro n acc hacc c hc; exact hacc c hc
  | succ fuel ih =>
    intro n acc hacc c hc
    rw [Nat.toDigitsCore] at hc
    split at hc
    · rcases List.mem_cons.mp hc with h | h
      · subst h; exact digitChar_ne_space _
      · exact hacc c h
    · refine ih (n / b) (Nat.digitChar (n % b) :: acc) ?_ c hc
      intro x hx
      rcases List.mem_cons.mp hx with h | h
      · subst h; exact digitChar_ne_space _
      · exact hacc x h

/-- No character of `Nat.repr` is a space. -/
theorem repr_ne_space (n : Nat) : ∀ c ∈ (Nat.repr n).data, c ≠ ' ' := by
  intro c hc
  exact toDigitsCore_ne_space 10 (n + 1) n [] (by intro x hx; cases hx) c hc

/-- Zero-filling the space padding: `replaceAll(' ', '0')` turns the
space-padded decimal index into the zero-padded one. -/
theorem inxOfIndex_mkIndex (n : Nat) :
    inxOfIndex (mkIndex n) = "inx" ++ jsPadStart (Nat.repr n) 5 '0' := by
  have hmap : (Nat.repr n).data.map (fun c => if c = ' ' then '0' else c) =
      (Nat.repr n).data := by
    have h : ∀ c ∈ (Nat.repr n).data,
        (fun c => if c = ' ' then '0' else c) c = id c := by
      intro c hc
      simp [repr_ne_space n c hc]
    rw [List.map_congr_left h, List.map_id]
  unfold inxOfIndex mkIndex jsReplaceAll jsPadStart
  congr 1
  simp [List.map_append, List.map_replicate, hmap]

/-- C9: the archive file name is the raw name when it is non-empty, and the
`inx`-form zero-padded index when it is empty; the `error-` marker is
prepended exactly for Failure results (and for Success results nothing is
prepended). -/
theorem claim_C9 (r : FetchResult) (n : Nat) :
    (r.name ≠ "" → archiveFileId r = r.name) ∧
    (r.name = "" → r.index = mkIndex n →
      archiveFileId r = "inx" ++ jsPadStart (Nat.repr n) 5 '0') ∧
    (isErrorResult r = true →
      archiveName r = "error-" ++ (inxOfIndex r.index ++ ("-" ++ archiveFileId r))) ∧
    (isErrorResult r = false → archiveName r = archiveFileId r) := by
  refine ⟨?_, ?_, ?_, ?_⟩
  · intro h
    simp only [archiveFileId]
    rw [if_neg]
    simpa using h
  · intro h hidx
    simp only [archiveFileId]
    rw [if_pos (by simpa using h), hidx, inxOfIndex_mkIndex]
  · intro h
    simp [archiveName, archivePfx, h, String.append_assoc]
  · intro h
    simp [archiveName, archivePfx, h]

/-- C9 witness: for the empty-name Failure at index 12, the file id is the
zero-padded `inx00012` and the name carries the `error-` marker. -/
theorem claim_C9_witness :
    archiveFileId c9Failure = "inx" ++ jsPadStart (Nat.repr 12) 5 '0' ∧
    archiveName c9Failure =
      "error-" ++ (inxOfIndex c9Failure.index ++ ("-" ++ archiveFileId c9Failure)) :=
  ⟨(claim_C9 c9Failure 12).2.1 (by decide) (by decide),
   (claim_C9 c9Failure 12).2.2.1 (by decide)⟩

/-- C10: the cache path and the output path coincide for every name (the two
directories are the same constant), so the Archive Sink's skip condition
degenerates to the `fromCache` flag: a cached result triggers no write, and a
non-cached result triggers exactly one write. -/
theorem claim_C10 :
    (∀ name : String, getCache name = getOuput name) ∧
    ∀ r : FetchResult,
      archiveAction r =
        if r.isCached then none
        else some (getOuput (archiveName r), archiveDoc r) := by
  refine ⟨fun _ => rfl, ?_⟩
  intro r
  have hpath : (getCache r.name == getOuput r.name) = true := by
    simp [getCache, getOuput, catchDir]
  simp only [archiveAction, hpath, Bool.and_true]
